import Mathlib

/-!
Verification of the sorted-chunk merge / in-memory sort comparator machinery of
the StarRocks execution engine, shallowly embedded from
`src/be/src/exec/vectorized/chunks_sorter.h` and the SortedChunksMerger test
fixture `src/be/test/runtime/vectorized/sorted_chunks_merger_test.cpp`.

Columns are modelled abstractly as lists of nullable values, following the
columnar-layer contract of the spec (one SQL value per row, three-way
`compare_at` with configurable null placement).  Varchar values appearing in
the merger fixture are encoded as integers in an order-preserving way, which
is faithful because the comparator observes values only through three-way
comparison.
-/

/-- A single cell of a column: an SQL value, or NULL (`none`). -/
abbrev Value := Option Int

/-- Three-way comparison of two nullable cells under a null placement flag,
the element contract of the columnar layer: a positive `null_first_flag`
makes NULL compare greatest, a negative one makes it compare least
(header comment of `_null_first_flag`: "1 for greatest, -1 for least"). -/
def compareValue (x y : Value) (null_first_flag : Int) : Int :=
  match x, y with
  | none, none => 0
  | none, some _ => null_first_flag
  | some _, none => -null_first_flag
  | some a, some b => if a < b then -1 else if b < a then 1 else 0

/-- A column: one nullable value per row. -/
abbrev Column := List Value

/-- Column::compare_at(i, j, other, null_first_flag) of the columnar layer. -/
def Column.compare_at (c : Column) (i j : Nat) (other : Column)
    (null_first_flag : Int) : Int :=
  compareValue (c.getD i none) (other.getD j none) null_first_flag

/-- The data batch held by a DataSegment; only its row count matters to the
sort/filter primitives. -/
structure Chunk where
  num_rows : Nat
deriving Repr, DecidableEq

/-- DataSegment: a chunk paired with its materialized order-by columns. -/
structure DataSegment where
  chunk : Chunk
  order_by_columns : List Column
deriving Repr, DecidableEq

/-- Placeholder segment used for (always in-range) list indexing. -/
def defaultSegment : DataSegment := ⟨⟨0⟩, []⟩

/-- The column loop of DataSegment::compare_at: compare the two rows column
by column from `col_index`, and at the first column whose raw comparison is
non-zero return that result multiplied by the column's sort order flag; if
every column compares equal return 0.  The recursion is driven by the count
of columns not yet examined (the C++ for-loop bound), so that it is
structural and computable. -/
def DataSegment.compare_at_loop (seg : DataSegment) (index_in_chunk : Nat)
    (other : DataSegment) (index_in_other_chunk : Nat)
    (sort_order_flag null_first_flag : List Int) :
    Nat → Nat → Int
  | 0, _ => 0
  | remaining + 1, col_index =>
    if col_index < seg.order_by_columns.length then
      let left_col := seg.order_by_columns.getD col_index []
      let right_col := other.order_by_columns.getD col_index []
      let c := Column.compare_at left_col index_in_chunk index_in_other_chunk
        right_col (null_first_flag.getD col_index 0)
      if c ≠ 0 then c * sort_order_flag.getD col_index 0
      else seg.compare_at_loop index_in_chunk other index_in_other_chunk
        sort_order_flag null_first_flag remaining (col_index + 1)
    else 0

/-- The column loop of DataSegment::compare_at started at `col_index`, with
the remaining-column count instantiated. -/
def DataSegment.compare_at_from (seg : DataSegment) (index_in_chunk : Nat)
    (other : DataSegment) (index_in_other_chunk : Nat)
    (sort_order_flag null_first_flag : List Int) (col_index : Nat) : Int :=
  seg.compare_at_loop index_in_chunk other index_in_other_chunk
    sort_order_flag null_first_flag
    (seg.order_by_columns.length - col_index) col_index

/-- DataSegment::compare_at: multi-key three-way row comparison. -/
def DataSegment.compare_at (seg : DataSegment) (index_in_chunk : Nat)
    (other : DataSegment) (index_in_other_chunk : Nat)
    (sort_order_flag null_first_flag : List Int) : Int :=
  seg.compare_at_from index_in_chunk other index_in_other_chunk
    sort_order_flag null_first_flag 0

/-- Collapse of a raw comparison result to {-1, 0, 1}, as done in the body of
DataSegment::compare_between_rows. -/
def to_sign (res : Int) : Int :=
  if res < 0 then -1 else if 0 < res then 1 else 0

/-- DataSegment::compare_between_rows&lt;reversed&gt;: compare every listed row of
`incoming_column` with row `number_of_row_to_compare` of `base_column`, store
the (possibly negated) collapsed result into `compare_results` at that row,
and keep exactly the rows that compared equal for the next column.  Returns
the surviving row list and the updated results. -/
def compare_between_rows (reversed : Bool) (incoming_column base_column : Column)
    (number_of_row_to_compare : Nat) (rows_to_compare : List Nat)
    (compare_results : List Int) (null_first_flag : Int) :
    List Nat × List Int :=
  match rows_to_compare with
  | [] => ([], compare_results)
  | row :: rest =>
    let res := Column.compare_at incoming_column row number_of_row_to_compare
      base_column null_first_flag
    let v : Int := to_sign res
    let stored : Int := if reversed then -v else v
    let updated := compare_results.set row stored
    let next := compare_between_rows reversed incoming_column base_column
      number_of_row_to_compare rest updated null_first_flag
    (if res = 0 then row :: next.1 else next.1, next.2)

/-- DataSegment::compare_column_with_one_row: dispatch on the sign of the sort
order flag to the reversed or plain row comparison. -/
def compare_column_with_one_row (incoming_column base_column : Column)
    (number_of_row_to_compare : Nat) (rows_to_compare : List Nat)
    (compare_result : List Int) (sort_order_flag null_first_flag : Int) :
    List Nat × List Int :=
  if sort_order_flag < 0 then
    compare_between_rows true incoming_column base_column
      number_of_row_to_compare rows_to_compare compare_result null_first_flag
  else
    compare_between_rows false incoming_column base_column
      number_of_row_to_compare rows_to_compare compare_result null_first_flag

/-- The per-segment column loop of DataSegment::get_compare_results: walk
the order-by columns from `j`, narrowing the candidate row list, and stop as
soon as no candidate is left.  As for the row comparison loop, the recursion
is driven by the count of columns not yet examined. -/
def get_compare_results_loop (row_to_sort : Nat)
    (order_by_columns : List Column) (segment : DataSegment)
    (sort_order_flags null_first_flags : List Int) :
    Nat → Nat → List Nat → List Int → List Nat × List Int
  | 0, _, rows_to_compare, compare_results => (rows_to_compare, compare_results)
  | remaining + 1, j, rows_to_compare, compare_results =>
    if j < order_by_columns.length then
      let step := compare_column_with_one_row
        (segment.order_by_columns.getD j []) (order_by_columns.getD j [])
        row_to_sort rows_to_compare compare_results
        (sort_order_flags.getD j 0) (null_first_flags.getD j 0)
      if step.1 = [] then (step.1, step.2)
      else get_compare_results_loop row_to_sort order_by_columns segment
        sort_order_flags null_first_flags remaining (j + 1) step.1 step.2
    else (rows_to_compare, compare_results)

/-- The per-segment column loop started at column `j`, with the
remaining-column count instantiated. -/
def get_compare_results_cols (row_to_sort : Nat)
    (order_by_columns : List Column) (segment : DataSegment)
    (rows_to_compare : List Nat) (compare_results : List Int)
    (sort_order_flags null_first_flags : List Int) (j : Nat) :
    List Nat × List Int :=
  get_compare_results_loop row_to_sort order_by_columns segment
    sort_order_flags null_first_flags (order_by_columns.length - j) j
    rows_to_compare compare_results

/-- DataSegment::get_compare_results: for every data segment, compare its
candidate rows column by column against row `row_to_sort` of
`order_by_columns`, producing the per-segment three-state results. -/
def get_compare_results (row_to_sort : Nat) (order_by_columns : List Column)
    (rows_to_compare_array : List (List Nat))
    (compare_results_array : List (List Int))
    (data_segments : List DataSegment)
    (sort_order_flags null_first_flags : List Int) :
    List (List Nat) × List (List Int) :=
  let n := data_segments.length
  let pairs := (List.range n).map (fun i =>
    get_compare_results_cols row_to_sort order_by_columns
      (data_segments.getD i defaultSegment)
      (rows_to_compare_array.getD i []) (compare_results_array.getD i [])
      sort_order_flags null_first_flags 0)
  (pairs.map (fun p => p.1), pairs.map (fun p => p.2))

/-- DataSegment::BEFORE_LAST_RESULT. -/
def BEFORE_LAST_RESULT : Nat := 2

/-- DataSegment::IN_LAST_RESULT. -/
def IN_LAST_RESULT : Nat := 1

/-- Status of the execution engine: OK or an error (codes stand for the
engine's error messages). -/
inductive Status where
  | OK : Status
  | Error : Nat → Status
deriving Repr, DecidableEq

/-- Outputs of DataSegment::get_filter_array: the returned status together
with the final contents of its by-reference arguments `filter_array`,
`least_num` and `middle_num`. -/
structure FilterOut where
  status : Status
  filter_array : List (List Nat)
  least_num : Nat
  middle_num : Nat
deriving Repr, DecidableEq

/-- Initial candidate rows of the first compare of get_filter_array: every
row of every segment. -/
def first_pass_rows (data_segments : List DataSegment) : List (List Nat) :=
  data_segments.map (fun seg => List.range seg.chunk.num_rows)

/-- Freshly resized compare_results_array: one zero per row per segment. -/
def initial_results (data_segments : List DataSegment) : List (List Int) :=
  data_segments.map (fun seg => List.replicate seg.chunk.num_rows 0)

/-- Per-segment results of the first compare of get_filter_array: every row
of every segment compared with row `number_of_rows_to_sort - 1` of the
calling segment's order-by columns. -/
def pass_one_results (self : DataSegment) (data_segments : List DataSegment)
    (number_of_rows_to_sort : Nat)
    (sort_order_flags null_first_flags : List Int) : List (List Int) :=
  (get_compare_results (number_of_rows_to_sort - 1) self.order_by_columns
    (first_pass_rows data_segments) (initial_results data_segments)
    data_segments sort_order_flags null_first_flags).2

/-- Number of rows among the first `rows` whose compare result is negative. -/
def count_less (rows : Nat) (cr : List Int) : Nat :=
  ((List.range rows).filter (fun j => cr.getD j 0 < 0)).length

/-- Total over all segments of rows whose compare result is negative. -/
def total_count_less (data_segments : List DataSegment)
    (crs : List (List Int)) : Nat :=
  ((List.range data_segments.length).map (fun i =>
    count_less (data_segments.getD i defaultSegment).chunk.num_rows
      (crs.getD i []))).sum

/-- Number of rows among the first `rows` whose compare result is not
negative. -/
def count_not_less (rows : Nat) (cr : List Int) : Nat :=
  ((List.range rows).filter (fun j => ¬ cr.getD j 0 < 0)).length

/-- Total over all segments of rows whose compare result is not negative. -/
def total_count_not_less (data_segments : List DataSegment)
    (crs : List (List Int)) : Nat :=
  ((List.range data_segments.length).map (fun i =>
    count_not_less (data_segments.getD i defaultSegment).chunk.num_rows
      (crs.getD i []))).sum

/-- The `number_of_rows_to_sort == 1` marking of get_filter_array: rows that
compared less get BEFORE_LAST_RESULT, all others IN_LAST_RESULT. -/
def mark_single (seg : DataSegment) (cr : List Int) : List Nat :=
  (List.range seg.chunk.num_rows).map (fun j =>
    if cr.getD j 0 < 0 then BEFORE_LAST_RESULT else IN_LAST_RESULT)

/-- The intermediate marking after the first compare in the
`number_of_rows_to_sort > 1` branch: rows that compared less get
IN_LAST_RESULT, all others stay 0. -/
def mark_middle (seg : DataSegment) (cr : List Int) : List Nat :=
  (List.range seg.chunk.num_rows).map (fun j =>
    if cr.getD j 0 < 0 then IN_LAST_RESULT else 0)

/-- Candidate rows of the second compare for one segment: exactly the rows
whose first-compare result was negative, in row order. -/
def second_pass_rows_of (seg : DataSegment) (cr : List Int) : List Nat :=
  (List.range seg.chunk.num_rows).filter (fun j => cr.getD j 0 < 0)

/-- Candidate rows of the second compare of get_filter_array, per segment. -/
def second_pass_rows (self : DataSegment) (data_segments : List DataSegment)
    (number_of_rows_to_sort : Nat)
    (sort_order_flags null_first_flags : List Int) : List (List Nat) :=
  let cr1 := pass_one_results self data_segments number_of_rows_to_sort
    sort_order_flags null_first_flags
  (List.range data_segments.length).map (fun i =>
    second_pass_rows_of (data_segments.getD i defaultSegment) (cr1.getD i []))

/-- compare_results_array reset to all zeroes between the two compares. -/
def reset_results (data_segments : List DataSegment) : List (List Int) :=
  data_segments.map (fun seg => List.replicate seg.chunk.num_rows 0)

/-- Per-segment results of the second compare of get_filter_array: the rows
kept from the first compare, compared with row 0 of the calling segment's
order-by columns. -/
def pass_two_results (self : DataSegment) (data_segments : List DataSegment)
    (number_of_rows_to_sort : Nat)
    (sort_order_flags null_first_flags : List Int) : List (List Int) :=
  (get_compare_results 0 self.order_by_columns
    (second_pass_rows self data_segments number_of_rows_to_sort
      sort_order_flags null_first_flags)
    (reset_results data_segments) data_segments
    sort_order_flags null_first_flags).2

/-- Final marking of one segment in the `number_of_rows_to_sort > 1` branch:
rows negative in the second compare are overwritten with BEFORE_LAST_RESULT
on top of the intermediate marking. -/
def mark_final (seg : DataSegment) (cr1 cr2 : List Int) : List Nat :=
  (List.range seg.chunk.num_rows).map (fun j =>
    if cr2.getD j 0 < 0 then BEFORE_LAST_RESULT
    else if cr1.getD j 0 < 0 then IN_LAST_RESULT else 0)

/-- DataSegment::get_filter_array: classify every row of every data segment
against the calling segment's row `number_of_rows_to_sort - 1` (and, in the
two-pass branch, its row 0), checking the memory limit once per execution.
The by-reference outputs keep their incoming values (`filter_array0`,
`least_num0`, `middle_num0`) wherever the C++ returns before assigning
them. -/
def get_filter_array (self : DataSegment) (data_segments : List DataSegment)
    (number_of_rows_to_sort : Nat) (filter_array0 : List (List Nat))
    (sort_order_flags null_first_flags : List Int)
    (least_num0 middle_num0 : Nat)
    (consume_and_check_memory_limit : Nat → Status) : FilterOut :=
  let cr1 := pass_one_results self data_segments number_of_rows_to_sort
    sort_order_flags null_first_flags
  if number_of_rows_to_sort = 1 then
    match consume_and_check_memory_limit 0 with
    | Status.Error e => ⟨Status.Error e, filter_array0, least_num0, middle_num0⟩
    | Status.OK =>
      let fa := (List.range data_segments.length).map (fun i =>
        mark_single (data_segments.getD i defaultSegment) (cr1.getD i []))
      let least := total_count_less data_segments cr1
      let middle := total_count_not_less data_segments cr1
      ⟨Status.OK, fa, least, middle⟩
  else
    let middle1 := total_count_less data_segments cr1
    let fa1 := (List.range data_segments.length).map (fun i =>
      mark_middle (data_segments.getD i defaultSegment) (cr1.getD i []))
    match consume_and_check_memory_limit
        (data_segments.length * 8 + middle1 * 8) with
    | Status.Error e => ⟨Status.Error e, fa1, least_num0, middle1⟩
    | Status.OK =>
      let cr2 := pass_two_results self data_segments number_of_rows_to_sort
        sort_order_flags null_first_flags
      let fa := (List.range data_segments.length).map (fun i =>
        mark_final (data_segments.getD i defaultSegment)
          (cr1.getD i []) (cr2.getD i []))
      let least := total_count_less data_segments cr2
      ⟨Status.OK, fa, least, middle1 - least⟩

/-! ## SortedChunksMerger

The merger implementation (`runtime/vectorized/sorted_chunks_merger.{h,cpp}`)
is not part of the sample; only its unit test is.  The model below follows
the spec's description of the k-way merge (section 4.2): keep one cursor per
pull-source, repeatedly select across the non-exhausted sources the row with
the smallest key under the multi-key row comparator with ties broken by
source index, append it to the output batch, and stop a batch at the
configured size threshold or when all sources are exhausted; signal
end-of-stream once no rows remain.  A pull-source is modelled as the
flattened finite sequence of rows of its sorted batches (refill from the
same source is transparent to the emitted stream), and the single-source
bulk-copy optimization is observationally the same selection loop restricted
to one source. -/

/-- A row of a chunk: one nullable value per slot. -/
abbrev Row := List Value

/-- An order-by key of the merger: (slot index, sort order flag,
null-first flag). -/
abbrev OrderKey := Nat × Int × Int

/-- Modelled from the spec: the merger's multi-key row comparator
(RowComparator), iterating the order-by keys in spec order, returning at the
first key whose raw comparison is non-zero that result times the key's
direction flag. -/
def rowCompare : List OrderKey → Row → Row → Int
  | [], _, _ => 0
  | (slot, flag, nf) :: rest, a, b =>
    let c := compareValue (a.getD slot none) (b.getD slot none) nf
    if c ≠ 0 then c * flag else rowCompare rest a b

/-- Modelled from the spec: select, across all non-exhausted sources, the
source whose current row is smallest under the comparator, ties broken by
the smaller source index.  Returns the source index and its current row, or
`none` when every source is exhausted. -/
def bestSource (spec : List OrderKey) : List (List Row) → Option (Nat × Row)
  | [] => none
  | [] :: rest =>
    (bestSource spec rest).map (fun p => (p.1 + 1, p.2))
  | (r :: _) :: rest =>
    match bestSource spec rest with
    | none => some (0, r)
    | some (i, best) =>
      if rowCompare spec best r < 0 then some (i + 1, best) else some (0, r)

/-- Advance the cursor of source `i` past its current row. -/
def popRow (i : Nat) (sources : List (List Row)) : List (List Row) :=
  sources.set i ((sources.getD i []).drop 1)

/-- Modelled from the spec: accumulate up to `n` merged rows into one output
batch by repeated smallest-row selection. -/
def takeBatch (spec : List OrderKey) : Nat → List (List Row) →
    List Row × List (List Row)
  | 0, sources => ([], sources)
  | n + 1, sources =>
    match bestSource spec sources with
    | none => ([], sources)
    | some (i, r) =>
      let rest := takeBatch spec n (popRow i sources)
      (r :: rest.1, rest.2)

/-- State of a merge session: the remaining rows of every source. -/
structure MergerState where
  sources : List (List Row)
deriving Repr, DecidableEq

/-- Rows not yet emitted. -/
def totalRows (st : MergerState) : Nat :=
  (st.sources.map List.length).sum

/-- The configured output batch size threshold of the test fixture
(config::vector_chunk_size). -/
def vector_chunk_size : Nat := 1024

/-- Modelled from the spec: SortedChunksMerger::get_next, returning the next
merged output batch, or `none` for end-of-stream when all sources are
exhausted and no buffered rows remain. -/
def SortedChunksMerger.get_next (spec : List OrderKey) (st : MergerState) :
    Option (List Row) × MergerState :=
  if totalRows st = 0 then (none, st)
  else
    let tb := takeBatch spec vector_chunk_size st.sources
    (some tb.1, ⟨tb.2⟩)

/-- Pull merged batches until end-of-stream, with enough fuel to drain
everything; returns the concatenation of the emitted batches and the final
state. -/
def drainGo (spec : List OrderKey) : Nat → MergerState →
    List Row × MergerState
  | 0, st => ([], st)
  | fuel + 1, st =>
    match SortedChunksMerger.get_next spec st with
    | (none, st1) => ([], st1)
    | (some batch, st1) =>
      let rest := drainGo spec fuel st1
      (batch ++ rest.1, rest.2)

/-- All rows emitted by a merge session, and the state it ends in. -/
def drainAll (spec : List OrderKey) (st : MergerState) :
    List Row × MergerState :=
  drainGo spec (totalRows st) st

/-- Whether consecutive rows are in non-decreasing comparator order. -/
def isSortedRows (spec : List OrderKey) : List Row → Bool
  | [] => true
  | [_] => true
  | a :: b :: rest =>
    decide (rowCompare spec a b ≤ 0) && isSortedRows spec (b :: rest)

/-! ### The three-supplier fixture of sorted_chunks_merger_test.cpp

Varchar values are encoded as integers preserving lexicographic byte order
among the strings that occur: EGYPT &lt; IRAN &lt; IRAQ &lt; JORDAN &lt;
MIDDLE EAST &lt; SAUDI ARABIA. -/

/-- Encoding of "EGYPT". -/
def strEGYPT : Int := 0

/-- Encoding of "IRAN". -/
def strIRAN : Int := 1

/-- Encoding of "IRAQ". -/
def strIRAQ : Int := 2

/-- Encoding of "JORDAN". -/
def strJORDAN : Int := 3

/-- Encoding of "MIDDLE EAST". -/
def strMIDDLE_EAST : Int := 4

/-- Encoding of "SAUDI ARABIA". -/
def strSAUDI_ARABIA : Int := 5

/-- Rows of the first fixture chunk: slots (cust_key, nation, region). -/
def chunk1Rows : List Row :=
  [[some 71, none, none],
   [some 70, none, none],
   [some 69, none, none],
   [some 55, some strIRAN, some strMIDDLE_EAST],
   [some 49, some strIRAN, some strMIDDLE_EAST],
   [some 41, some strIRAN, some strMIDDLE_EAST],
   [some 24, some strJORDAN, some strMIDDLE_EAST],
   [some 12, some strJORDAN, some strMIDDLE_EAST],
   [some 2, some strJORDAN, some strMIDDLE_EAST]]

/-- Rows of the second fixture chunk. -/
def chunk2Rows : List Row :=
  [[some 54, some strEGYPT, some strMIDDLE_EAST],
   [some 4, some strEGYPT, some strMIDDLE_EAST],
   [some 16, some strIRAN, some strMIDDLE_EAST],
   [some 52, some strIRAQ, some strMIDDLE_EAST],
   [some 6, some strSAUDI_ARABIA, some strMIDDLE_EAST]]

/-- Rows of the third fixture chunk. -/
def chunk3Rows : List Row :=
  [[some 56, some strIRAN, some strMIDDLE_EAST],
   [some 58, some strJORDAN, some strMIDDLE_EAST]]

/-- The fixture's order spec: region (slot 2) descending nulls-first,
nation (slot 1) ascending nulls-first, cust_key (slot 0) descending
nulls-first; nulls-first with a descending direction needs NULL to compare
raw-greatest (flag +1), with an ascending one raw-least (flag -1). -/
def fixtureOrderSpec : List OrderKey :=
  [(2, -1, 1), (1, 1, -1), (0, -1, 1)]

/-- Number of rows of one segment whose filter mark equals `mark`. -/
def count_marked_in (num_rows : Nat) (fa : List Nat) (mark : Nat) : Nat :=
  ((List.range num_rows).filter (fun r => fa.getD r 0 == mark)).length

/-- Number of rows across all segments whose filter mark equals `mark`. -/
def count_marked (data_segments : List DataSegment) (fa : List (List Nat))
    (mark : Nat) : Nat :=
  ((List.range data_segments.length).map (fun i =>
    count_marked_in (data_segments.getD i defaultSegment).chunk.num_rows
      (fa.getD i []) mark)).sum

/-- Modelled from the spec: the ChunksSorter constructor (chunks_sorter.cpp,
not part of the sample) fills _sort_order_flag per column, "1 for ascending,
-1 for descending" (chunks_sorter.h header comment). -/
def sort_order_flag_of (is_asc : Bool) : Int :=
  if is_asc then 1 else -1

/-- Modelled from the spec: the ChunksSorter constructor (chunks_sorter.cpp,
not part of the sample) fills _null_first_flag per column ("1 for greatest,
-1 for least") from the (ascending, nulls-first) configuration so that, after
compare_at multiplies the raw column comparison by the sort order flag,
nulls-first places NULL keys smallest in the final order for both
directions: ascending nulls-first needs NULL raw-least (-1), descending
nulls-first needs NULL raw-greatest (+1), and symmetrically for
nulls-last. -/
def null_first_flag_of (is_asc is_null_first : Bool) : Int :=
  if is_asc then (if is_null_first then -1 else 1)
  else (if is_null_first then 1 else -1)

/-! ## Helper lemmas -/

theorem getD_set_self {α : Type} (l : List α) (i : Nat) (v d : α)
    (h : i < l.length) : (l.set i v).getD i d = v := by
  simp [List.getD_eq_getElem?_getD, List.getElem?_set_self h]

theorem getD_set_ne {α : Type} (l : List α) (i j : Nat) (v d : α)
    (h : j ≠ i) : (l.set i v).getD j d = l.getD j d := by
  simp [List.getD_eq_getElem?_getD, List.getElem?_set_ne (Ne.symm h)]

theorem getD_map_range {α : Type} (f : Nat → α) (n i : Nat) (d : α)
    (h : i < n) : (((List.range n).map f).getD i d) = f i := by
  simp [List.getD_eq_getElem?_getD, List.getElem?_map, List.getElem?_range h]

theorem getD_replicate {α : Type} (a d : α) (n i : Nat) (h : i < n) :
    (List.replicate n a).getD i d = a := by
  simp [List.getD_eq_getElem?_getD, List.getElem?_replicate, h]

theorem to_sign_eq_zero_iff (c : Int) : to_sign c = 0 ↔ c = 0 := by
  unfold to_sign; split_ifs <;> simp <;> omega

theorem to_sign_neg_iff (c : Int) : to_sign c < 0 ↔ c < 0 := by
  unfold to_sign; split_ifs <;> simp <;> omega

theorem to_sign_cases (c : Int) :
    to_sign c = -1 ∨ to_sign c = 0 ∨ to_sign c = 1 := by
  unfold to_sign; split_ifs <;> simp

theorem to_sign_neg (c : Int) : to_sign (-c) = -to_sign c := by
  unfold to_sign; split_ifs <;> omega

theorem to_sign_mul_flag (c flag : Int) (h : flag = 1 ∨ flag = -1) :
    (if flag < 0 then -to_sign c else to_sign c) = to_sign (c * flag) := by
  rcases h with h | h <;> subst h
  · norm_num
  · norm_num [mul_comm c (-1 : Int), neg_one_mul, to_sign_neg]

/-! ## compare_between_rows -/

theorem compare_between_rows_fst (reversed : Bool) (inc base : Column)
    (n : Nat) (rows : List Nat) (nf : Int) :
    ∀ cr : List Int,
    (compare_between_rows reversed inc base n rows cr nf).1 =
      rows.filter (fun r => Column.compare_at inc r n base nf == 0) := by
  induction rows with
  | nil => intro cr; rfl
  | cons row rest ih =>
    intro cr
    by_cases hres : Column.compare_at inc row n base nf = 0
    · simp [compare_between_rows, ih, hres]
    · simp [compare_between_rows, ih, hres]

theorem compare_between_rows_len (reversed : Bool) (inc base : Column)
    (n : Nat) (rows : List Nat) (nf : Int) :
    ∀ cr : List Int,
    ((compare_between_rows reversed inc base n rows cr nf).2).length =
      cr.length := by
  induction rows with
  | nil => intro cr; rfl
  | cons row rest ih =>
    intro cr
    simp only [compare_between_rows, ih, List.length_set]

theorem compare_between_rows_snd (reversed : Bool) (inc base : Column)
    (n : Nat) (rows : List Nat) (nf : Int) :
    ∀ (cr : List Int), (∀ r ∈ rows, r < cr.length) → ∀ r : Nat,
    ((compare_between_rows reversed inc base n rows cr nf).2).getD r 0 =
      if r ∈ rows then
        (if reversed then -to_sign (Column.compare_at inc r n base nf)
          else to_sign (Column.compare_at inc r n base nf))
      else cr.getD r 0 := by
  induction rows with
  | nil => intro cr _ r; simp [compare_between_rows]
  | cons row rest ih =>
    intro cr hb r
    have hrowlen : row < cr.length := hb row (List.mem_cons_self row rest)
    have hb' : ∀ x ∈ rest, x <
        (cr.set row (if reversed
          then -to_sign (Column.compare_at inc row n base nf)
          else to_sign (Column.compare_at inc row n base nf))).length := by
      intro x hx
      rw [List.length_set]
      exact hb x (List.mem_cons_of_mem row hx)
    simp only [compare_between_rows]
    rw [ih _ hb' r]
    by_cases hmem : r ∈ rest
    · simp [hmem]
    · by_cases heq : r = row
      · subst heq
        simp only [hmem, if_false, List.mem_cons, true_or, if_true]
        exact getD_set_self cr r _ 0 hrowlen
      · simp only [hmem, if_false, List.mem_cons, heq, false_or]
        exact getD_set_ne cr row r _ 0 heq

/-! ## compare_column_with_one_row -/

theorem compare_column_with_one_row_fst (inc base : Column) (n : Nat)
    (rows : List Nat) (cr : List Int) (flag nf : Int) :
    (compare_column_with_one_row inc base n rows cr flag nf).1 =
      rows.filter (fun r => Column.compare_at inc r n base nf == 0) := by
  unfold compare_column_with_one_row
  split_ifs <;> exact compare_between_rows_fst _ inc base n rows nf cr

theorem compare_column_with_one_row_len (inc base : Column) (n : Nat)
    (rows : List Nat) (cr : List Int) (flag nf : Int) :
    ((compare_column_with_one_row inc base n rows cr flag nf).2).length =
      cr.length := by
  unfold compare_column_with_one_row
  split_ifs <;> exact compare_between_rows_len _ inc base n rows nf cr

theorem compare_column_with_one_row_snd (inc base : Column) (n : Nat)
    (rows : List Nat) (cr : List Int) (flag nf : Int)
    (hb : ∀ r ∈ rows, r < cr.length) (r : Nat) :
    ((compare_column_with_one_row inc base n rows cr flag nf).2).getD r 0 =
      if r ∈ rows then
        (if flag < 0 then -to_sign (Column.compare_at inc r n base nf)
          else to_sign (Column.compare_at inc r n base nf))
      else cr.getD r 0 := by
  unfold compare_column_with_one_row
  by_cases hf : flag < 0
  · simp only [if_pos hf]
    rw [compare_between_rows_snd true inc base n rows nf cr hb r]
    by_cases hmem : r ∈ rows
    · simp only [if_pos hmem]
      rfl
    · simp only [if_neg hmem]
  · simp only [if_neg hf]
    rw [compare_between_rows_snd false inc base n rows nf cr hb r]
    by_cases hmem : r ∈ rows
    · simp only [if_pos hmem]
      rfl
    · simp only [if_neg hmem]

/-! ## compare_at_from unfolding lemmas -/

theorem compare_at_from_ge (seg : DataSegment) (i : Nat) (other : DataSegment)
    (k : Nat) (flags nfs : List Int) (j : Nat)
    (h : seg.order_by_columns.length ≤ j) :
    seg.compare_at_from i other k flags nfs j = 0 := by
  unfold DataSegment.compare_at_from
  rw [Nat.sub_eq_zero_of_le h]
  rfl

theorem compare_at_from_step_ne (seg : DataSegment) (i : Nat)
    (other : DataSegment) (k : Nat) (flags nfs : List Int) (j : Nat)
    (hj : j < seg.order_by_columns.length)
    (hraw : Column.compare_at (seg.order_by_columns.getD j []) i k
      (other.order_by_columns.getD j []) (nfs.getD j 0) ≠ 0) :
    seg.compare_at_from i other k flags nfs j =
      Column.compare_at (seg.order_by_columns.getD j []) i k
        (other.order_by_columns.getD j []) (nfs.getD j 0) *
        flags.getD j 0 := by
  unfold DataSegment.compare_at_from
  obtain ⟨rem, hrem⟩ : ∃ rem, seg.order_by_columns.length - j = rem + 1 :=
    ⟨seg.order_by_columns.length - j - 1, by omega⟩
  rw [hrem]
  simp only [DataSegment.compare_at_loop, if_pos hj, if_pos hraw]

theorem compare_at_from_step_eq (seg : DataSegment) (i : Nat)
    (other : DataSegment) (k : Nat) (flags nfs : List Int) (j : Nat)
    (hj : j < seg.order_by_columns.length)
    (hraw : Column.compare_at (seg.order_by_columns.getD j []) i k
      (other.order_by_columns.getD j []) (nfs.getD j 0) = 0) :
    seg.compare_at_from i other k flags nfs j =
      seg.compare_at_from i other k flags nfs (j + 1) := by
  unfold DataSegment.compare_at_from
  obtain ⟨rem, hrem⟩ : ∃ rem, seg.order_by_columns.length - j = rem + 1 :=
    ⟨seg.order_by_columns.length - j - 1, by omega⟩
  have hrem2 : seg.order_by_columns.length - (j + 1) = rem := by omega
  rw [hrem, hrem2]
  simp only [DataSegment.compare_at_loop, if_pos hj, hraw, ne_eq,
    not_true_eq_false, if_false]

theorem get_compare_results_cols_ge (row_to_sort : Nat) (obc : List Column)
    (segment : DataSegment) (rows : List Nat) (cr : List Int)
    (flags nfs : List Int) (j : Nat) (h : obc.length ≤ j) :
    get_compare_results_cols row_to_sort obc segment rows cr flags nfs j =
      (rows, cr) := by
  unfold get_compare_results_cols
  rw [Nat.sub_eq_zero_of_le h]
  rfl

theorem get_compare_results_cols_step (row_to_sort : Nat) (obc : List Column)
    (segment : DataSegment) (rows : List Nat) (cr : List Int)
    (flags nfs : List Int) (j : Nat) (h : j < obc.length) :
    get_compare_results_cols row_to_sort obc segment rows cr flags nfs j =
      (let step := compare_column_with_one_row
        (segment.order_by_columns.getD j []) (obc.getD j [])
        row_to_sort rows cr (flags.getD j 0) (nfs.getD j 0)
      if step.1 = [] then (step.1, step.2)
      else get_compare_results_cols row_to_sort obc segment
        step.1 step.2 flags nfs (j + 1)) := by
  unfold get_compare_results_cols
  obtain ⟨rem, hrem⟩ : ∃ rem, obc.length - j = rem + 1 :=
    ⟨obc.length - j - 1, by omega⟩
  have hrem2 : obc.length - (j + 1) = rem := by omega
  rw [hrem, hrem2]
  simp only [get_compare_results_loop, if_pos h]

/-! ## The column loop computes the sign of the scalar comparison -/

theorem get_compare_results_cols_snd (other segment : DataSegment)
    (row_to_sort : Nat) (flags nfs : List Int)
    (hlen : segment.order_by_columns.length = other.order_by_columns.length)
    (hflags : ∀ k, k < other.order_by_columns.length →
      flags.getD k 0 = 1 ∨ flags.getD k 0 = -1) :
    ∀ (fuel j : Nat), other.order_by_columns.length - j ≤ fuel →
    ∀ (rows : List Nat) (cr : List Int),
      (∀ r ∈ rows, cr.getD r 0 = 0) → (∀ r ∈ rows, r < cr.length) →
      ∀ r : Nat,
    ((get_compare_results_cols row_to_sort other.order_by_columns segment
        rows cr flags nfs j).2).getD r 0 =
      if r ∈ rows then
        to_sign (segment.compare_at_from r other row_to_sort flags nfs j)
      else cr.getD r 0 := by
  intro fuel
  induction fuel with
  | zero =>
    intro j hj rows cr hz hb r
    have hge : other.order_by_columns.length ≤ j := by omega
    rw [get_compare_results_cols_ge row_to_sort other.order_by_columns
      segment rows cr flags nfs j hge]
    rw [compare_at_from_ge segment r other row_to_sort flags nfs j
      (hlen ▸ hge)]
    by_cases hr : r ∈ rows
    · rw [if_pos hr, hz r hr]
      rfl
    · rw [if_neg hr]
  | succ fuel ih =>
    intro j hj rows cr hz hb r
    by_cases hlt : j < other.order_by_columns.length
    · rw [get_compare_results_cols_step row_to_sort other.order_by_columns
        segment rows cr flags nfs j hlt]
      simp only []
      have hfst := compare_column_with_one_row_fst
        (segment.order_by_columns.getD j []) (other.order_by_columns.getD j [])
        row_to_sort rows cr (flags.getD j 0) (nfs.getD j 0)
      have hsnd := compare_column_with_one_row_snd
        (segment.order_by_columns.getD j []) (other.order_by_columns.getD j [])
        row_to_sort rows cr (flags.getD j 0) (nfs.getD j 0) hb
      have hlen2 := compare_column_with_one_row_len
        (segment.order_by_columns.getD j []) (other.order_by_columns.getD j [])
        row_to_sort rows cr (flags.getD j 0) (nfs.getD j 0)
      set step := compare_column_with_one_row
        (segment.order_by_columns.getD j []) (other.order_by_columns.getD j [])
        row_to_sort rows cr (flags.getD j 0) (nfs.getD j 0) with hstep
      by_cases hempty : step.1 = []
      · rw [if_pos hempty]
        rw [hsnd r]
        by_cases hr : r ∈ rows
        · rw [if_pos hr, if_pos hr]
          have hraw : Column.compare_at (segment.order_by_columns.getD j []) r
              row_to_sort (other.order_by_columns.getD j [])
              (nfs.getD j 0) ≠ 0 := by
            intro h0
            have hrin : r ∈ step.1 := by
              rw [hfst]
              exact List.mem_filter.mpr ⟨hr, by simpa using h0⟩
            rw [hempty] at hrin
            exact absurd hrin (List.not_mem_nil r)
          rw [compare_at_from_step_ne segment r other row_to_sort flags nfs j
            (hlen ▸ hlt) hraw]
          exact to_sign_mul_flag _ _ (hflags j hlt)
        · rw [if_neg hr, if_neg hr]
      · rw [if_neg hempty]
        have hz1 : ∀ x ∈ step.1, step.2.getD x 0 = 0 := by
          intro x hx
          rw [hfst] at hx
          obtain ⟨hxr, hxraw⟩ := List.mem_filter.mp hx
          rw [hsnd x, if_pos hxr]
          have hx0 : Column.compare_at (segment.order_by_columns.getD j []) x
              row_to_sort (other.order_by_columns.getD j [])
              (nfs.getD j 0) = 0 := by simpa using hxraw
          rw [hx0]
          split_ifs <;> rfl
        have hb1 : ∀ x ∈ step.1, x < step.2.length := by
          intro x hx
          rw [hlen2]
          rw [hfst] at hx
          exact hb x (List.mem_filter.mp hx).1
        have hfuel : other.order_by_columns.length - (j + 1) ≤ fuel := by omega
        rw [ih (j + 1) hfuel step.1 step.2 hz1 hb1 r]
        by_cases hr : r ∈ rows
        · by_cases hraw : Column.compare_at (segment.order_by_columns.getD j [])
              r row_to_sort (other.order_by_columns.getD j [])
              (nfs.getD j 0) = 0
          · have hrin : r ∈ step.1 := by
              rw [hfst]
              exact List.mem_filter.mpr ⟨hr, by simpa using hraw⟩
            rw [if_pos hrin, if_pos hr]
            rw [compare_at_from_step_eq segment r other row_to_sort flags nfs j
              (hlen ▸ hlt) hraw]
          · have hrnot : r ∉ step.1 := by
              rw [hfst]
              intro hcon
              exact hraw (by simpa using (List.mem_filter.mp hcon).2)
            rw [if_neg hrnot, hsnd r, if_pos hr, if_pos hr]
            rw [compare_at_from_step_ne segment r other row_to_sort flags nfs j
              (hlen ▸ hlt) hraw]
            exact to_sign_mul_flag _ _ (hflags j hlt)
        · have hrnot : r ∉ step.1 := by
            rw [hfst]
            intro hcon
            exact hr (List.mem_filter.mp hcon).1
          rw [if_neg hrnot, hsnd r, if_neg hr, if_neg hr]
    · have hge : other.order_by_columns.length ≤ j := by omega
      rw [get_compare_results_cols_ge row_to_sort other.order_by_columns
        segment rows cr flags nfs j hge]
      rw [compare_at_from_ge segment r other row_to_sort flags nfs j
        (hlen ▸ hge)]
      by_cases hr : r ∈ rows
      · rw [if_pos hr, hz r hr]
        rfl
      · rw [if_neg hr]

/-! ## Per-segment entry characterizations -/

theorem getD_map_list {α β : Type} (f : α → β) (l : List α) (i : Nat)
    (d : β) (dflt : α) (hi : i < l.length) :
    (l.map f).getD i d = f (l.getD i dflt) := by
  simp [List.getD_eq_getElem?_getD, List.getElem?_map,
    List.getElem?_eq_getElem hi]

theorem getD_mem_of_lt {α : Type} (l : List α) (i : Nat) (d : α)
    (h : i < l.length) : l.getD i d ∈ l := by
  rw [List.getD_eq_getElem?_getD, List.getElem?_eq_getElem h]
  exact List.getElem_mem h

theorem get_compare_results_entry (row_to_sort : Nat) (obc : List Column)
    (rows_arr : List (List Nat)) (crs : List (List Int))
    (segs : List DataSegment) (flags nfs : List Int) (i : Nat)
    (hi : i < segs.length) :
    ((get_compare_results row_to_sort obc rows_arr crs segs flags nfs).2).getD
        i [] =
      (get_compare_results_cols row_to_sort obc (segs.getD i defaultSegment)
        (rows_arr.getD i []) (crs.getD i []) flags nfs 0).2 := by
  unfold get_compare_results
  simp only [List.map_map]
  rw [getD_map_range _ _ _ _ hi]
  rfl

theorem pass_one_results_entry (self : DataSegment) (segs : List DataSegment)
    (n : Nat) (flags nfs : List Int)
    (hlen : ∀ s ∈ segs,
      s.order_by_columns.length = self.order_by_columns.length)
    (hflags : ∀ k, k < self.order_by_columns.length →
      flags.getD k 0 = 1 ∨ flags.getD k 0 = -1)
    (i r : Nat) (hi : i < segs.length)
    (hr : r < (segs.getD i defaultSegment).chunk.num_rows) :
    ((pass_one_results self segs n flags nfs).getD i []).getD r 0 =
      to_sign ((segs.getD i defaultSegment).compare_at r self (n - 1)
        flags nfs) := by
  unfold pass_one_results
  rw [get_compare_results_entry _ _ _ _ _ _ _ _ hi]
  have hmem : segs.getD i defaultSegment ∈ segs :=
    getD_mem_of_lt segs i defaultSegment hi
  have hrows : (first_pass_rows segs).getD i [] =
      List.range (segs.getD i defaultSegment).chunk.num_rows := by
    unfold first_pass_rows
    rw [getD_map_list _ _ _ _ defaultSegment hi]
  have hcrs : (initial_results segs).getD i [] =
      List.replicate (segs.getD i defaultSegment).chunk.num_rows 0 := by
    unfold initial_results
    rw [getD_map_list _ _ _ _ defaultSegment hi]
  rw [hrows, hcrs]
  rw [get_compare_results_cols_snd self (segs.getD i defaultSegment) (n - 1)
    flags nfs (hlen _ hmem) hflags (self.order_by_columns.length) 0
    (by omega) _ _
    (by
      intro x hx
      exact getD_replicate 0 0 _ x (List.mem_range.mp hx))
    (by
      intro x hx
      rw [List.length_replicate]
      exact List.mem_range.mp hx) r]
  rw [if_pos (List.mem_range.mpr hr)]
  rfl

theorem second_pass_rows_entry (self : DataSegment) (segs : List DataSegment)
    (n : Nat) (flags nfs : List Int) (i : Nat) (hi : i < segs.length) :
    (second_pass_rows self segs n flags nfs).getD i [] =
      second_pass_rows_of (segs.getD i defaultSegment)
        ((pass_one_results self segs n flags nfs).getD i []) := by
  unfold second_pass_rows
  rw [getD_map_range _ _ _ _ hi]

theorem second_pass_rows_mem (self : DataSegment) (segs : List DataSegment)
    (n : Nat) (flags nfs : List Int)
    (hlen : ∀ s ∈ segs,
      s.order_by_columns.length = self.order_by_columns.length)
    (hflags : ∀ k, k < self.order_by_columns.length →
      flags.getD k 0 = 1 ∨ flags.getD k 0 = -1)
    (i r : Nat) (hi : i < segs.length) :
    (r ∈ (second_pass_rows self segs n flags nfs).getD i [] ↔
      r < (segs.getD i defaultSegment).chunk.num_rows ∧
      (segs.getD i defaultSegment).compare_at r self (n - 1) flags nfs < 0) := by
  rw [second_pass_rows_entry self segs n flags nfs i hi]
  unfold second_pass_rows_of
  rw [List.mem_filter]
  constructor
  · rintro ⟨hrange, hlt⟩
    have hr : r < (segs.getD i defaultSegment).chunk.num_rows :=
      List.mem_range.mp hrange
    refine ⟨hr, ?_⟩
    have := pass_one_results_entry self segs n flags nfs hlen hflags i r hi hr
    rw [this] at hlt
    exact (to_sign_neg_iff _).mp (by simpa using hlt)
  · rintro ⟨hr, hlt⟩
    refine ⟨List.mem_range.mpr hr, ?_⟩
    have := pass_one_results_entry self segs n flags nfs hlen hflags i r hi hr
    rw [decide_eq_true_eq, this]
    exact (to_sign_neg_iff _).mpr hlt

theorem pass_two_results_entry (self : DataSegment) (segs : List DataSegment)
    (n : Nat) (flags nfs : List Int)
    (hlen : ∀ s ∈ segs,
      s.order_by_columns.length = self.order_by_columns.length)
    (hflags : ∀ k, k < self.order_by_columns.length →
      flags.getD k 0 = 1 ∨ flags.getD k 0 = -1)
    (i r : Nat) (hi : i < segs.length)
    (hr : r < (segs.getD i defaultSegment).chunk.num_rows) :
    ((pass_two_results self segs n flags nfs).getD i []).getD r 0 =
      if (segs.getD i defaultSegment).compare_at r self (n - 1) flags nfs < 0
      then to_sign ((segs.getD i defaultSegment).compare_at r self 0 flags nfs)
      else 0 := by
  unfold pass_two_results
  rw [get_compare_results_entry _ _ _ _ _ _ _ _ hi]
  have hmem : segs.getD i defaultSegment ∈ segs :=
    getD_mem_of_lt segs i defaultSegment hi
  have hcrs : (reset_results segs).getD i [] =
      List.replicate (segs.getD i defaultSegment).chunk.num_rows 0 := by
    unfold reset_results
    rw [getD_map_list _ _ _ _ defaultSegment hi]
  rw [hcrs]
  rw [get_compare_results_cols_snd self (segs.getD i defaultSegment) 0
    flags nfs (hlen _ hmem) hflags (self.order_by_columns.length) 0
    (by omega) _ _
    (by
      intro x hx
      have hx2 := (second_pass_rows_mem self segs n flags nfs hlen hflags i x
        hi).mp hx
      exact getD_replicate 0 0 _ x hx2.1)
    (by
      intro x hx
      have hx2 := (second_pass_rows_mem self segs n flags nfs hlen hflags i x
        hi).mp hx
      rw [List.length_replicate]
      exact hx2.1) r]
  by_cases hless :
      (segs.getD i defaultSegment).compare_at r self (n - 1) flags nfs < 0
  · rw [if_pos hless]
    rw [if_pos ((second_pass_rows_mem self segs n flags nfs hlen hflags i r
      hi).mpr ⟨hr, hless⟩)]
    rfl
  · rw [if_neg hless]
    rw [if_neg (fun hcon =>
      hless ((second_pass_rows_mem self segs n flags nfs hlen hflags i r
        hi).mp hcon).2)]
    exact getD_replicate 0 0 _ r hr

/-! ## get_filter_array branch lemmas -/

theorem get_filter_array_eq_one (self : DataSegment) (segs : List DataSegment)
    (f0 : List (List Nat)) (flags nfs : List Int) (l0 m0 : Nat)
    (cb : Nat → Status) (hcb : cb 0 = Status.OK) :
    get_filter_array self segs 1 f0 flags nfs l0 m0 cb =
      ⟨Status.OK,
        (List.range segs.length).map (fun i =>
          mark_single (segs.getD i defaultSegment)
            ((pass_one_results self segs 1 flags nfs).getD i [])),
        total_count_less segs (pass_one_results self segs 1 flags nfs),
        total_count_not_less segs (pass_one_results self segs 1 flags nfs)⟩ := by
  unfold get_filter_array
  rw [if_pos rfl, hcb]

theorem get_filter_array_gt_one (self : DataSegment) (segs : List DataSegment)
    (n : Nat) (f0 : List (List Nat)) (flags nfs : List Int) (l0 m0 : Nat)
    (cb : Nat → Status) (hn : n ≠ 1)
    (hcb : cb (segs.length * 8 +
      total_count_less segs (pass_one_results self segs n flags nfs) * 8) =
      Status.OK) :
    get_filter_array self segs n f0 flags nfs l0 m0 cb =
      ⟨Status.OK,
        (List.range segs.length).map (fun i =>
          mark_final (segs.getD i defaultSegment)
            ((pass_one_results self segs n flags nfs).getD i [])
            ((pass_two_results self segs n flags nfs).getD i [])),
        total_count_less segs (pass_two_results self segs n flags nfs),
        total_count_less segs (pass_one_results self segs n flags nfs) -
          total_count_less segs (pass_two_results self segs n flags nfs)⟩ := by
  unfold get_filter_array
  rw [if_neg hn]
  simp only [hcb]

theorem get_filter_array_status (self : DataSegment) (segs : List DataSegment)
    (n : Nat) (f0 : List (List Nat)) (flags nfs : List Int) (l0 m0 : Nat)
    (cb : Nat → Status) :
    (get_filter_array self segs n f0 flags nfs l0 m0 cb).status =
      cb (if n = 1 then 0 else segs.length * 8 +
        total_count_less segs (pass_one_results self segs n flags nfs) * 8) := by
  by_cases hn : n = 1
  · subst hn
    unfold get_filter_array
    rw [if_pos rfl, if_pos rfl]
    cases hcb : cb 0 <;> simp [hcb]
  · unfold get_filter_array
    rw [if_neg hn, if_neg hn]
    cases hcb : cb (segs.length * 8 +
        total_count_less segs (pass_one_results self segs n flags nfs) * 8) <;>
      simp [hcb]

/-! ## Counting lemmas -/

theorem length_filter_split (l : List Nat) (p q : Nat → Bool) :
    (l.filter p).length =
      (l.filter (fun a => p a && q a)).length +
      (l.filter (fun a => p a && !q a)).length := by
  induction l with
  | nil => rfl
  | cons a t ih =>
    by_cases hp : p a <;> by_cases hq : q a <;>
      simp [List.filter_cons, hp, hq, ih] <;> omega

theorem mark_final_getD (seg : DataSegment) (cr1 cr2 : List Int) (r : Nat)
    (hrn : r < seg.chunk.num_rows) :
    (mark_final seg cr1 cr2).getD r 0 =
      if cr2.getD r 0 < 0 then BEFORE_LAST_RESULT
      else if cr1.getD r 0 < 0 then IN_LAST_RESULT else 0 := by
  unfold mark_final
  rw [getD_map_range _ _ _ _ hrn]

theorem mark_single_getD (seg : DataSegment) (cr : List Int) (r : Nat)
    (hrn : r < seg.chunk.num_rows) :
    (mark_single seg cr).getD r 0 =
      if cr.getD r 0 < 0 then BEFORE_LAST_RESULT else IN_LAST_RESULT := by
  unfold mark_single
  rw [getD_map_range _ _ _ _ hrn]

theorem count_marked_final_before (seg : DataSegment) (cr1 cr2 : List Int) :
    count_marked_in seg.chunk.num_rows (mark_final seg cr1 cr2)
        BEFORE_LAST_RESULT =
      count_less seg.chunk.num_rows cr2 := by
  unfold count_marked_in count_less
  congr 1
  apply List.filter_congr
  intro r hr
  have hrn := List.mem_range.mp hr
  rw [mark_final_getD seg cr1 cr2 r hrn]
  by_cases h2 : cr2.getD r 0 < 0
  · rw [if_pos h2, decide_eq_true h2]
    rfl
  · rw [if_neg h2, decide_eq_false h2]
    by_cases h1 : cr1.getD r 0 < 0
    · rw [if_pos h1]
      rfl
    · rw [if_neg h1]
      rfl

theorem count_less_split_in (seg : DataSegment) (cr1 cr2 : List Int)
    (himp : ∀ r, r < seg.chunk.num_rows → cr2.getD r 0 < 0 →
      cr1.getD r 0 < 0) :
    count_less seg.chunk.num_rows cr1 =
      count_less seg.chunk.num_rows cr2 +
      count_marked_in seg.chunk.num_rows (mark_final seg cr1 cr2)
        IN_LAST_RESULT := by
  unfold count_less count_marked_in
  rw [length_filter_split (List.range seg.chunk.num_rows)
    (fun j => decide (cr1.getD j 0 < 0)) (fun j => decide (cr2.getD j 0 < 0))]
  congr 1
  · congr 1
    apply List.filter_congr
    intro r hr
    have hrn := List.mem_range.mp hr
    by_cases h2 : cr2.getD r 0 < 0
    · rw [decide_eq_true h2, decide_eq_true (himp r hrn h2)]
      rfl
    · rw [decide_eq_false h2, Bool.and_false]
  · congr 1
    apply List.filter_congr
    intro r hr
    have hrn := List.mem_range.mp hr
    rw [mark_final_getD seg cr1 cr2 r hrn]
    by_cases h2 : cr2.getD r 0 < 0
    · rw [if_pos h2, decide_eq_true h2]
      by_cases h1 : cr1.getD r 0 < 0
      · rw [decide_eq_true h1]
        rfl
      · rw [decide_eq_false h1]
        rfl
    · rw [if_neg h2, decide_eq_false h2]
      by_cases h1 : cr1.getD r 0 < 0
      · rw [if_pos h1, decide_eq_true h1]
        rfl
      · rw [if_neg h1, decide_eq_false h1]
        rfl

theorem count_single_split (num_rows : Nat) (cr : List Int) :
    count_less num_rows cr + count_not_less num_rows cr = num_rows := by
  unfold count_less count_not_less
  have h := List.length_eq_length_filter_add
    (l := List.range num_rows) (fun j => decide (cr.getD j 0 < 0))
  rw [List.length_range] at h
  conv_rhs => rw [h]
  congr 2
  apply List.filter_congr
  intro r _
  rw [decide_not]

/-! ## First-nonzero characterization of compare_at -/

theorem compare_at_from_all_zero (a b : DataSegment) (i j : Nat)
    (flags nfs : List Int) :
    ∀ (fuel k : Nat), a.order_by_columns.length - k ≤ fuel →
    (∀ l, k ≤ l → l < a.order_by_columns.length →
      Column.compare_at (a.order_by_columns.getD l []) i j
        (b.order_by_columns.getD l []) (nfs.getD l 0) = 0) →
    a.compare_at_from i b j flags nfs k = 0 := by
  intro fuel
  induction fuel with
  | zero =>
    intro k hk _
    exact compare_at_from_ge a i b j flags nfs k (by omega)
  | succ fuel ih =>
    intro k hk hz
    by_cases hlt : k < a.order_by_columns.length
    · rw [compare_at_from_step_eq a i b j flags nfs k hlt
        (hz k (Nat.le_refl k) hlt)]
      exact ih (k + 1) (by omega) (fun l hl1 hl2 => hz l (by omega) hl2)
    · exact compare_at_from_ge a i b j flags nfs k (by omega)

theorem compare_at_from_first_nonzero (a b : DataSegment) (i j : Nat)
    (flags nfs : List Int) :
    ∀ (fuel k m : Nat), m - k ≤ fuel → k ≤ m →
    m < a.order_by_columns.length →
    (∀ l, k ≤ l → l < m →
      Column.compare_at (a.order_by_columns.getD l []) i j
        (b.order_by_columns.getD l []) (nfs.getD l 0) = 0) →
    Column.compare_at (a.order_by_columns.getD m []) i j
      (b.order_by_columns.getD m []) (nfs.getD m 0) ≠ 0 →
    a.compare_at_from i b j flags nfs k =
      Column.compare_at (a.order_by_columns.getD m []) i j
        (b.order_by_columns.getD m []) (nfs.getD m 0) * flags.getD m 0 := by
  intro fuel
  induction fuel with
  | zero =>
    intro k m hfuel hkm hm _ hne
    have hkeq : k = m := by omega
    subst hkeq
    exact compare_at_from_step_ne a i b j flags nfs k hm hne
  | succ fuel ih =>
    intro k m hfuel hkm hm hz hne
    by_cases hkeq : k = m
    · subst hkeq
      exact compare_at_from_step_ne a i b j flags nfs k hm hne
    · have hklt : k < m := by omega
      rw [compare_at_from_step_eq a i b j flags nfs k (by omega)
        (hz k (Nat.le_refl k) hklt)]
      exact ih (k + 1) m (by omega) (by omega) hm
        (fun l hl1 hl2 => hz l (by omega) hl2) hne

/-! ## Totals over segments -/

theorem count_marked_map (segs : List DataSegment)
    (mk : Nat → List Nat) (mark : Nat) :
    count_marked segs ((List.range segs.length).map mk) mark =
      ((List.range segs.length).map (fun i =>
        count_marked_in (segs.getD i defaultSegment).chunk.num_rows
          (mk i) mark)).sum := by
  unfold count_marked
  congr 1
  apply List.map_congr_left
  intro i hi
  rw [getD_map_range _ _ _ _ (List.mem_range.mp hi)]

theorem compare_between_rows_snd_not_mem (reversed : Bool)
    (inc base : Column) (n : Nat) (rows : List Nat) (nf : Int) :
    ∀ (cr : List Int) (r : Nat), r ∉ rows →
    ((compare_between_rows reversed inc base n rows cr nf).2).getD r 0 =
      cr.getD r 0 := by
  induction rows with
  | nil => intro cr r _; rfl
  | cons row rest ih =>
    intro cr r hr
    have hr1 : r ∉ rest := fun hc => hr (List.mem_cons_of_mem row hc)
    have hr2 : r ≠ row := fun hc => hr (hc ▸ List.mem_cons_self row rest)
    simp only [compare_between_rows]
    rw [ih _ r hr1]
    exact getD_set_ne cr row r _ 0 hr2

theorem get_compare_results_initial_entry (target : DataSegment)
    (row_to_sort : Nat) (segs : List DataSegment) (flags nfs : List Int)
    (hlen : ∀ s ∈ segs,
      s.order_by_columns.length = target.order_by_columns.length)
    (hflags : ∀ k, k < target.order_by_columns.length →
      flags.getD k 0 = 1 ∨ flags.getD k 0 = -1)
    (i r : Nat) (hi : i < segs.length)
    (hr : r < (segs.getD i defaultSegment).chunk.num_rows) :
    (((get_compare_results row_to_sort target.order_by_columns
        (first_pass_rows segs) (initial_results segs) segs
        flags nfs).2).getD i []).getD r 0 =
      to_sign ((segs.getD i defaultSegment).compare_at r target row_to_sort
        flags nfs) := by
  rw [get_compare_results_entry _ _ _ _ _ _ _ _ hi]
  have hmem : segs.getD i defaultSegment ∈ segs :=
    getD_mem_of_lt segs i defaultSegment hi
  have hrows : (first_pass_rows segs).getD i [] =
      List.range (segs.getD i defaultSegment).chunk.num_rows := by
    unfold first_pass_rows
    rw [getD_map_list _ _ _ _ defaultSegment hi]
  have hcrs : (initial_results segs).getD i [] =
      List.replicate (segs.getD i defaultSegment).chunk.num_rows 0 := by
    unfold initial_results
    rw [getD_map_list _ _ _ _ defaultSegment hi]
  rw [hrows, hcrs]
  rw [get_compare_results_cols_snd target (segs.getD i defaultSegment)
    row_to_sort flags nfs (hlen _ hmem) hflags
    (target.order_by_columns.length) 0 (by omega) _ _
    (by
      intro x hx
      exact getD_replicate 0 0 _ x (List.mem_range.mp hx))
    (by
      intro x hx
      rw [List.length_replicate]
      exact List.mem_range.mp hx) r]
  rw [if_pos (List.mem_range.mpr hr)]
  rfl

/-! ## Claim theorems -/

/-- C1: DataSegment::compare_at iterates the order-by keys in spec order;
when every key's raw column comparison (under that key's null-first flag)
is zero the two rows compare equal (result 0), and at the first key whose
raw comparison is non-zero the result is that raw comparison multiplied by
the key's direction flag. -/
theorem C1_compare_at_first_key (a b : DataSegment) (i j : Nat)
    (flags nfs : List Int)
    (hcols : a.order_by_columns.length = b.order_by_columns.length)
    (hi : i < a.chunk.num_rows) (hj : j < b.chunk.num_rows) :
    ((∀ k, k < a.order_by_columns.length →
        Column.compare_at (a.order_by_columns.getD k []) i j
          (b.order_by_columns.getD k []) (nfs.getD k 0) = 0) →
      a.compare_at i b j flags nfs = 0) ∧
    (∀ k, k < a.order_by_columns.length →
      (∀ l, l < k →
        Column.compare_at (a.order_by_columns.getD l []) i j
          (b.order_by_columns.getD l []) (nfs.getD l 0) = 0) →
      Column.compare_at (a.order_by_columns.getD k []) i j
        (b.order_by_columns.getD k []) (nfs.getD k 0) ≠ 0 →
      a.compare_at i b j flags nfs =
        Column.compare_at (a.order_by_columns.getD k []) i j
          (b.order_by_columns.getD k []) (nfs.getD k 0) *
          flags.getD k 0) := by
  constructor
  · intro hz
    exact compare_at_from_all_zero a b i j flags nfs
      a.order_by_columns.length 0 (by omega) (fun l _ hl2 => hz l hl2)
  · intro k hk hprev hne
    exact compare_at_from_first_nonzero a b i j flags nfs k 0 k (by omega)
      (Nat.zero_le k) hk (fun l _ hl2 => hprev l hl2) hne

theorem C1_compare_at_first_key_witness :
    (⟨⟨1⟩, [[some 5]]⟩ : DataSegment).compare_at 0
      (⟨⟨1⟩, [[some 3]]⟩ : DataSegment) 0 [-1] [-1] = -1 := by
  have h := (C1_compare_at_first_key ⟨⟨1⟩, [[some 5]]⟩ ⟨⟨1⟩, [[some 3]]⟩
    0 0 [-1] [-1] (by decide) (by decide) (by decide)).2 0 (by decide)
    (fun l hl => absurd hl (Nat.not_lt_zero l)) (by decide)
  rw [h]
  decide

/-- C9: compare_between_rows returns, as the surviving candidate list,
exactly the input rows whose single-column comparison against the base row
was equal, in their original relative order (so never more rows than the
input), and leaves compare_results entries at indexes not listed in the
input unchanged. -/
theorem C9_compare_between_rows_narrowing (reversed : Bool)
    (inc base : Column) (n : Nat) (rows : List Nat) (cr : List Int)
    (nf : Int) :
    (compare_between_rows reversed inc base n rows cr nf).1 =
      rows.filter (fun r => Column.compare_at inc r n base nf == 0) ∧
    (compare_between_rows reversed inc base n rows cr nf).1.length ≤
      rows.length ∧
    (∀ r, r ∉ rows →
      ((compare_between_rows reversed inc base n rows cr nf).2).getD r 0 =
        cr.getD r 0) := by
  refine ⟨compare_between_rows_fst reversed inc base n rows nf cr, ?_, ?_⟩
  · rw [compare_between_rows_fst reversed inc base n rows nf cr]
    exact List.length_filter_le _ rows
  · intro r hr
    exact compare_between_rows_snd_not_mem reversed inc base n rows nf cr r hr

/-- C3: on candidate sets that initially contain every row of every segment,
the column-by-column narrowing bulk primitive get_compare_results computes
per candidate row exactly the sign, in {-1, 0, 1}, of the scalar multi-key
comparison DataSegment::compare_at of that row against the target row under
the same sort-order and null-first flags. -/
theorem C3_get_compare_results_refines_compare_at (target : DataSegment)
    (row_to_sort : Nat) (segs : List DataSegment) (flags nfs : List Int)
    (hlen : ∀ s ∈ segs,
      s.order_by_columns.length = target.order_by_columns.length)
    (hflags : ∀ k, k < target.order_by_columns.length →
      flags.getD k 0 = 1 ∨ flags.getD k 0 = -1)
    (i r : Nat) (hi : i < segs.length)
    (hr : r < (segs.getD i defaultSegment).chunk.num_rows) :
    (((get_compare_results row_to_sort target.order_by_columns
        (first_pass_rows segs) (initial_results segs) segs
        flags nfs).2).getD i []).getD r 0 =
      to_sign ((segs.getD i defaultSegment).compare_at r target row_to_sort
        flags nfs) ∧
    ((((get_compare_results row_to_sort target.order_by_columns
        (first_pass_rows segs) (initial_results segs) segs
        flags nfs).2).getD i []).getD r 0 = -1 ∨
      (((get_compare_results row_to_sort target.order_by_columns
        (first_pass_rows segs) (initial_results segs) segs
        flags nfs).2).getD i []).getD r 0 = 0 ∨
      (((get_compare_results row_to_sort target.order_by_columns
        (first_pass_rows segs) (initial_results segs) segs
        flags nfs).2).getD i []).getD r 0 = 1) := by
  have h := get_compare_results_initial_entry target row_to_sort segs flags
    nfs hlen hflags i r hi hr
  refine ⟨h, ?_⟩
  rw [h]
  exact to_sign_cases _

theorem C3_get_compare_results_refines_compare_at_witness :
    (((get_compare_results 0 [[some 5]] (first_pass_rows [⟨⟨2⟩, [[some 3,
        some 7]]⟩]) (initial_results [⟨⟨2⟩, [[some 3, some 7]]⟩])
        [⟨⟨2⟩, [[some 3, some 7]]⟩] [1] [-1]).2).getD 0 []).getD 0 0 =
      to_sign ((⟨⟨2⟩, [[some 3, some 7]]⟩ : DataSegment).compare_at 0
        (⟨⟨1⟩, [[some 5]]⟩ : DataSegment) 0 [1] [-1]) := by
  exact (C3_get_compare_results_refines_compare_at ⟨⟨1⟩, [[some 5]]⟩ 0
    [⟨⟨2⟩, [[some 3, some 7]]⟩] [1] [-1]
    (by intro s hs; simp at hs; subst hs; rfl)
    (by intro k hk; left; simp at hk; subst hk; rfl)
    0 0 (by decide) (by decide)).1

/-- C5, counterexample: with two order-by keys, both ascending and
nulls-first, where the second key of the left row is NULL and of the right
row non-NULL but the first key already orders the left row strictly after,
DataSegment::compare_at returns a positive result, so the NULL-keyed row
does not compare strictly before the non-NULL-keyed one as the claim, read
over whole rows, demands. -/
theorem C5_counterexample :
    (((⟨⟨1⟩, [[some 1], [none]]⟩ : DataSegment).order_by_columns.getD 1
      []).getD 0 none = none) ∧
    (((⟨⟨1⟩, [[some 0], [some 5]]⟩ : DataSegment).order_by_columns.getD 1
      []).getD 0 none = some 5) ∧
    ([-1, -1].getD 1 0 = null_first_flag_of true true) ∧
    ([1, 1].getD 1 0 = sort_order_flag_of true) ∧
    ¬ ((⟨⟨1⟩, [[some 1], [none]]⟩ : DataSegment).compare_at 0
        (⟨⟨1⟩, [[some 0], [some 5]]⟩ : DataSegment) 0 [1, 1] [-1, -1] < 0) := by
  decide

/-- C5 (amended): for an order-by column `k` configured nulls-first, whenever
the two rows compare equal on every earlier order-by key (so column `k` is
the deciding key), a row whose key on column `k` is NULL compares strictly
before a row whose key there is non-NULL under DataSegment::compare_at, both
for ascending and descending direction; symmetrically, nulls-last places the
NULL-keyed row strictly after in both directions. -/
theorem C5_nulls_first_amended (a b : DataSegment) (i j k : Nat)
    (flags nfs : List Int) (is_asc is_null_first : Bool)
    (hk : k < a.order_by_columns.length)
    (hflag : flags.getD k 0 = sort_order_flag_of is_asc)
    (hnf : nfs.getD k 0 = null_first_flag_of is_asc is_null_first)
    (hprev : ∀ l, l < k →
      Column.compare_at (a.order_by_columns.getD l []) i j
        (b.order_by_columns.getD l []) (nfs.getD l 0) = 0)
    (hnull : (a.order_by_columns.getD k []).getD i none = none)
    (hval : ∃ v, (b.order_by_columns.getD k []).getD j none = some v) :
    (is_null_first = true → a.compare_at i b j flags nfs < 0) ∧
    (is_null_first = false → 0 < a.compare_at i b j flags nfs) := by
  obtain ⟨v, hv⟩ := hval
  have hraw : Column.compare_at (a.order_by_columns.getD k []) i j
      (b.order_by_columns.getD k []) (nfs.getD k 0) =
      null_first_flag_of is_asc is_null_first := by
    unfold Column.compare_at
    rw [hnull, hv, hnf]
    rfl
  have hne : Column.compare_at (a.order_by_columns.getD k []) i j
      (b.order_by_columns.getD k []) (nfs.getD k 0) ≠ 0 := by
    rw [hraw]
    unfold null_first_flag_of
    cases is_asc <;> cases is_null_first <;> norm_num
  have heq : a.compare_at i b j flags nfs =
      Column.compare_at (a.order_by_columns.getD k []) i j
        (b.order_by_columns.getD k []) (nfs.getD k 0) * flags.getD k 0 :=
    compare_at_from_first_nonzero a b i j flags nfs k 0 k (by omega)
      (Nat.zero_le k) hk (fun l _ hl2 => hprev l hl2) hne
  constructor <;> intro hcase <;> subst hcase <;>
    rw [heq, hraw, hflag] <;>
    unfold null_first_flag_of sort_order_flag_of <;>
    cases is_asc <;> norm_num

theorem C5_nulls_first_amended_witness :
    (⟨⟨1⟩, [[none]]⟩ : DataSegment).compare_at 0
      (⟨⟨1⟩, [[some 7]]⟩ : DataSegment) 0 [1] [-1] < 0 :=
  (C5_nulls_first_amended ⟨⟨1⟩, [[none]]⟩ ⟨⟨1⟩, [[some 7]]⟩ 0 0 0 [1] [-1]
    true true (by decide) (by decide) (by decide)
    (fun l hl => absurd hl (Nat.not_lt_zero l)) (by decide)
    ⟨7, by decide⟩).1 rfl

/-- C4, counterexample: the single candidate row is tied with the Nth row of
the calling segment in pass 1 (compare_at = 0), yet the second-pass
candidate list is empty: rows found tied in pass 1 are not the ones compared
in pass 2 (the strictly-before rows are). -/
theorem C4_counterexample :
    ((⟨⟨1⟩, [[some 7]]⟩ : DataSegment).compare_at 0
      (⟨⟨2⟩, [[some 7, some 7]]⟩ : DataSegment) 1 [1] [-1] = 0) ∧
    (second_pass_rows ⟨⟨2⟩, [[some 7, some 7]]⟩ [⟨⟨1⟩, [[some 7]]⟩] 2
      [1] [-1]).getD 0 [] = [] := by
  decide

/-- C4 (amended): get_filter_array with number_of_rows_to_sort greater
than 1 performs exactly two comparison passes: pass 1 compares every
candidate row against the row at index number_of_rows_to_sort - 1 (its
initial candidate list is every row of every segment), and pass 2 compares,
against the first row, exactly those rows whose pass-1 comparison placed
them strictly before the Nth row; no other rows are compared in pass 2. -/
theorem C4_two_pass_amended (self : DataSegment) (segs : List DataSegment)
    (n : Nat) (flags nfs : List Int)
    (hn : 1 < n)
    (hlen : ∀ s ∈ segs,
      s.order_by_columns.length = self.order_by_columns.length)
    (hflags : ∀ k, k < self.order_by_columns.length →
      flags.getD k 0 = 1 ∨ flags.getD k 0 = -1)
    (i : Nat) (hi : i < segs.length) :
    ((first_pass_rows segs).getD i [] =
      List.range (segs.getD i defaultSegment).chunk.num_rows) ∧
    (∀ r, r ∈ (second_pass_rows self segs n flags nfs).getD i [] ↔
      (r < (segs.getD i defaultSegment).chunk.num_rows ∧
        (segs.getD i defaultSegment).compare_at r self (n - 1) flags nfs
          < 0)) := by
  refine ⟨?_, ?_⟩
  · unfold first_pass_rows
    rw [getD_map_list _ _ _ _ defaultSegment hi]
  · intro r
    exact second_pass_rows_mem self segs n flags nfs hlen hflags i r hi

theorem C4_two_pass_amended_witness :
    0 ∈ (second_pass_rows (⟨⟨2⟩, [[some 3, some 5]]⟩ : DataSegment)
      [⟨⟨2⟩, [[some 4, some 5]]⟩] 2 [1] [-1]).getD 0 [] :=
  ((C4_two_pass_amended ⟨⟨2⟩, [[some 3, some 5]]⟩ [⟨⟨2⟩, [[some 4, some 5]]⟩]
    2 [1] [-1] (by omega)
    (by intro s hs; simp at hs; subst hs; rfl)
    (by intro k hk; left; simp at hk; subst hk; rfl)
    0 (by decide)).2 0).mpr (by decide)

theorem classify_entry_arith (cN c0 : Int) :
    (((if (if cN < 0 then to_sign c0 else 0) < 0 then BEFORE_LAST_RESULT
      else if to_sign cN < 0 then IN_LAST_RESULT else 0) =
        BEFORE_LAST_RESULT) ↔ (cN < 0 ∧ c0 < 0)) ∧
    (((if (if cN < 0 then to_sign c0 else 0) < 0 then BEFORE_LAST_RESULT
      else if to_sign cN < 0 then IN_LAST_RESULT else 0) =
        IN_LAST_RESULT) ↔ (cN < 0 ∧ ¬ c0 < 0)) ∧
    (((if (if cN < 0 then to_sign c0 else 0) < 0 then BEFORE_LAST_RESULT
      else if to_sign cN < 0 then IN_LAST_RESULT else 0) = 0) ↔
      ¬ cN < 0) := by
  by_cases hN : cN < 0
  · rw [if_pos hN]
    by_cases h0 : c0 < 0
    · rw [if_pos ((to_sign_neg_iff c0).mpr h0)]
      unfold BEFORE_LAST_RESULT IN_LAST_RESULT
      refine ⟨?_, ?_, ?_⟩ <;> constructor <;> intro hx <;> first
        | exact ⟨hN, h0⟩ | omega | exact absurd h0 hx.2 | exact absurd hN hx
    · rw [if_neg (fun hc => h0 ((to_sign_neg_iff c0).mp hc)),
        if_pos ((to_sign_neg_iff cN).mpr hN)]
      unfold BEFORE_LAST_RESULT IN_LAST_RESULT
      refine ⟨?_, ?_, ?_⟩ <;> constructor <;> intro hx <;> first
        | exact ⟨hN, h0⟩ | omega | exact absurd hx.2 (by omega)
        | exact absurd hN hx
  · rw [if_neg hN, if_neg (show ¬ (0 : Int) < 0 by omega),
      if_neg (fun hc => hN ((to_sign_neg_iff cN).mp hc))]
    unfold BEFORE_LAST_RESULT IN_LAST_RESULT
    refine ⟨?_, ?_, ?_⟩ <;> constructor <;> intro hx <;> first
      | exact hN | omega | exact absurd hx.1 hN

/-- C2, counterexample: boundary (row 1 of the calling segment) is 5 and its
first row is 3; the candidate segment holds rows 4 and 5.  Row 0 orders
strictly before the boundary (4 &lt; 5) yet is marked IN_LAST_RESULT, not
BEFORE_LAST_RESULT as the claim demands, and row 1 is tied with the boundary
yet is left unmarked (0), not IN_LAST_RESULT as the claim demands. -/
theorem C2_counterexample :
    (get_filter_array ⟨⟨2⟩, [[some 3, some 5]]⟩ [⟨⟨2⟩, [[some 4, some 5]]⟩]
      2 [] [1] [-1] 0 0 (fun _ => Status.OK)).status = Status.OK ∧
    ((get_filter_array ⟨⟨2⟩, [[some 3, some 5]]⟩ [⟨⟨2⟩, [[some 4, some 5]]⟩]
      2 [] [1] [-1] 0 0 (fun _ => Status.OK)).filter_array.getD 0 []).getD 0 0
      = IN_LAST_RESULT ∧
    IN_LAST_RESULT ≠ BEFORE_LAST_RESULT ∧
    (⟨⟨2⟩, [[some 4, some 5]]⟩ : DataSegment).compare_at 0
      (⟨⟨2⟩, [[some 3, some 5]]⟩ : DataSegment) 1 [1] [-1] < 0 ∧
    ((get_filter_array ⟨⟨2⟩, [[some 3, some 5]]⟩ [⟨⟨2⟩, [[some 4, some 5]]⟩]
      2 [] [1] [-1] 0 0 (fun _ => Status.OK)).filter_array.getD 0 []).getD 1 0
      = 0 ∧
    (0 : Nat) ≠ IN_LAST_RESULT ∧
    (⟨⟨2⟩, [[some 4, some 5]]⟩ : DataSegment).compare_at 1
      (⟨⟨2⟩, [[some 3, some 5]]⟩ : DataSegment) 1 [1] [-1] = 0 := by
  decide

/-- C2 (amended): with a memory callback that always returns OK and
number_of_rows_to_sort greater than 1, get_filter_array assigns every row of
every segment exactly one of three classes: BEFORE_LAST_RESULT exactly when
the row orders strictly before both the boundary row (index
number_of_rows_to_sort - 1 of the calling segment) and the first row of the
calling segment; IN_LAST_RESULT exactly when the row orders strictly before
the boundary but not strictly before the first row; and unmarked (0,
discarded) exactly when the row is tied with or orders after the boundary.
least_num counts the BEFORE rows and middle_num counts the IN rows. -/
theorem C2_filter_classes_amended (self : DataSegment)
    (segs : List DataSegment) (n : Nat) (flags nfs : List Int)
    (cb : Nat → Status)
    (hn : 1 < n) (hcb : ∀ b, cb b = Status.OK)
    (hne : ∀ s ∈ segs, 0 < s.chunk.num_rows)
    (hlen : ∀ s ∈ segs,
      s.order_by_columns.length = self.order_by_columns.length)
    (hflags : ∀ k, k < self.order_by_columns.length →
      flags.getD k 0 = 1 ∨ flags.getD k 0 = -1) :
    (get_filter_array self segs n [] flags nfs 0 0 cb).status = Status.OK ∧
    (∀ i r, i < segs.length →
      r < (segs.getD i defaultSegment).chunk.num_rows →
      ((((get_filter_array self segs n [] flags nfs 0 0 cb).filter_array.getD
          i []).getD r 0 = BEFORE_LAST_RESULT) ↔
        ((segs.getD i defaultSegment).compare_at r self (n - 1) flags nfs
            < 0 ∧
          (segs.getD i defaultSegment).compare_at r self 0 flags nfs < 0)) ∧
      ((((get_filter_array self segs n [] flags nfs 0 0 cb).filter_array.getD
          i []).getD r 0 = IN_LAST_RESULT) ↔
        ((segs.getD i defaultSegment).compare_at r self (n - 1) flags nfs
            < 0 ∧
          ¬ (segs.getD i defaultSegment).compare_at r self 0 flags nfs
            < 0)) ∧
      ((((get_filter_array self segs n [] flags nfs 0 0 cb).filter_array.getD
          i []).getD r 0 = 0) ↔
        ¬ (segs.getD i defaultSegment).compare_at r self (n - 1) flags nfs
          < 0)) ∧
    (get_filter_array self segs n [] flags nfs 0 0 cb).least_num =
      count_marked segs
        (get_filter_array self segs n [] flags nfs 0 0 cb).filter_array
        BEFORE_LAST_RESULT ∧
    (get_filter_array self segs n [] flags nfs 0 0 cb).middle_num =
      count_marked segs
        (get_filter_array self segs n [] flags nfs 0 0 cb).filter_array
        IN_LAST_RESULT := by
  have hgfa := get_filter_array_gt_one self segs n [] flags nfs 0 0 cb
    (by omega) (hcb _)
  have hstat : (get_filter_array self segs n [] flags nfs 0 0 cb).status =
      Status.OK := by rw [hgfa]
  have hfa : (get_filter_array self segs n [] flags nfs 0 0 cb).filter_array =
      (List.range segs.length).map (fun i =>
        mark_final (segs.getD i defaultSegment)
          ((pass_one_results self segs n flags nfs).getD i [])
          ((pass_two_results self segs n flags nfs).getD i [])) := by
    rw [hgfa]
  have hleast : (get_filter_array self segs n [] flags nfs 0 0 cb).least_num =
      total_count_less segs (pass_two_results self segs n flags nfs) := by
    rw [hgfa]
  have hmiddle :
      (get_filter_array self segs n [] flags nfs 0 0 cb).middle_num =
      total_count_less segs (pass_one_results self segs n flags nfs) -
        total_count_less segs (pass_two_results self segs n flags nfs) := by
    rw [hgfa]
  have himp : ∀ i, i < segs.length →
      ∀ r, r < (segs.getD i defaultSegment).chunk.num_rows →
      ((pass_two_results self segs n flags nfs).getD i []).getD r 0 < 0 →
      ((pass_one_results self segs n flags nfs).getD i []).getD r 0 < 0 := by
    intro i hi r hrn h2
    rw [pass_two_results_entry self segs n flags nfs hlen hflags i r hi hrn]
      at h2
    rw [pass_one_results_entry self segs n flags nfs hlen hflags i r hi hrn]
    by_cases hN : (segs.getD i defaultSegment).compare_at r self (n - 1)
        flags nfs < 0
    · exact (to_sign_neg_iff _).mpr hN
    · rw [if_neg hN] at h2
      omega
  refine ⟨hstat, ?_, ?_, ?_⟩
  · intro i r hi hr
    rw [hfa, getD_map_range _ _ _ _ hi, mark_final_getD _ _ _ r hr]
    rw [pass_one_results_entry self segs n flags nfs hlen hflags i r hi hr]
    rw [pass_two_results_entry self segs n flags nfs hlen hflags i r hi hr]
    exact classify_entry_arith
      ((segs.getD i defaultSegment).compare_at r self (n - 1) flags nfs)
      ((segs.getD i defaultSegment).compare_at r self 0 flags nfs)
  · rw [hleast, hfa, count_marked_map]
    unfold total_count_less
    apply congrArg
    apply List.map_congr_left
    intro i hi
    rw [(count_marked_final_before (segs.getD i defaultSegment)
      ((pass_one_results self segs n flags nfs).getD i [])
      ((pass_two_results self segs n flags nfs).getD i []))]
  · rw [hmiddle, hfa, count_marked_map]
    have hsplit : total_count_less segs
        (pass_one_results self segs n flags nfs) =
        total_count_less segs (pass_two_results self segs n flags nfs) +
        ((List.range segs.length).map (fun i =>
          count_marked_in (segs.getD i defaultSegment).chunk.num_rows
            (mark_final (segs.getD i defaultSegment)
              ((pass_one_results self segs n flags nfs).getD i [])
              ((pass_two_results self segs n flags nfs).getD i []))
            IN_LAST_RESULT)).sum := by
      unfold total_count_less
      rw [← List.sum_map_add]
      apply congrArg
      apply List.map_congr_left
      intro i hi
      exact count_less_split_in (segs.getD i defaultSegment)
        ((pass_one_results self segs n flags nfs).getD i [])
        ((pass_two_results self segs n flags nfs).getD i [])
        (himp i (List.mem_range.mp hi))
    omega

theorem C2_filter_classes_amended_witness :
    ((get_filter_array ⟨⟨2⟩, [[some 3, some 5]]⟩ [⟨⟨2⟩, [[some 4, some 5]]⟩]
      2 [] [1] [-1] 0 0 (fun _ => Status.OK)).filter_array.getD 0 []).getD 0 0
      = IN_LAST_RESULT := by
  have h := C2_filter_classes_amended ⟨⟨2⟩, [[some 3, some 5]]⟩
    [⟨⟨2⟩, [[some 4, some 5]]⟩] 2 [1] [-1] (fun _ => Status.OK)
    (by omega) (fun b => rfl)
    (by intro s hs; simp at hs; subst hs; decide)
    (by intro s hs; simp at hs; subst hs; rfl)
    (by intro k hk; left; simp at hk; subst hk; rfl)
  exact ((h.2.1 0 0 (by decide) (by decide)).2.1).mpr (by decide)

theorem map_getD_range {α β : Type} (l : List α) (f : α → β) (dflt : α) :
    (List.range l.length).map (fun i => f (l.getD i dflt)) = l.map f := by
  induction l with
  | nil => rfl
  | cons a t ih =>
    rw [List.length_cons, List.range_succ_eq_map, List.map_cons, List.map_map]
    congr 1

/-- C10: with number_of_rows_to_sort = 1 and an always-OK memory callback,
every row of every segment receives a non-zero mark: BEFORE_LAST_RESULT when
it orders strictly before the single boundary row (row 0 of the calling
segment), IN_LAST_RESULT otherwise, so no row is discarded by the filter,
and least_num + middle_num equals the total number of rows across all
segments. -/
theorem C10_single_row_filter (self : DataSegment) (segs : List DataSegment)
    (flags nfs : List Int) (cb : Nat → Status)
    (hcb : ∀ b, cb b = Status.OK)
    (hlen : ∀ s ∈ segs,
      s.order_by_columns.length = self.order_by_columns.length)
    (hflags : ∀ k, k < self.order_by_columns.length →
      flags.getD k 0 = 1 ∨ flags.getD k 0 = -1) :
    (get_filter_array self segs 1 [] flags nfs 0 0 cb).status = Status.OK ∧
    (∀ i r, i < segs.length →
      r < (segs.getD i defaultSegment).chunk.num_rows →
      (((get_filter_array self segs 1 [] flags nfs 0 0 cb).filter_array.getD
          i []).getD r 0 =
        (if (segs.getD i defaultSegment).compare_at r self 0 flags nfs < 0
          then BEFORE_LAST_RESULT else IN_LAST_RESULT)) ∧
      ((get_filter_array self segs 1 [] flags nfs 0 0 cb).filter_array.getD
          i []).getD r 0 ≠ 0) ∧
    (get_filter_array self segs 1 [] flags nfs 0 0 cb).least_num +
      (get_filter_array self segs 1 [] flags nfs 0 0 cb).middle_num =
      (segs.map (fun s => s.chunk.num_rows)).sum := by
  have hgfa := get_filter_array_eq_one self segs [] flags nfs 0 0 cb (hcb 0)
  have hstat : (get_filter_array self segs 1 [] flags nfs 0 0 cb).status =
      Status.OK := by rw [hgfa]
  have hfa : (get_filter_array self segs 1 [] flags nfs 0 0
      cb).filter_array =
      (List.range segs.length).map (fun i =>
        mark_single (segs.getD i defaultSegment)
          ((pass_one_results self segs 1 flags nfs).getD i [])) := by
    rw [hgfa]
  have hleast : (get_filter_array self segs 1 [] flags nfs 0 0
      cb).least_num =
      total_count_less segs (pass_one_results self segs 1 flags nfs) := by
    rw [hgfa]
  have hmiddle : (get_filter_array self segs 1 [] flags nfs 0 0
      cb).middle_num =
      total_count_not_less segs (pass_one_results self segs 1 flags nfs) := by
    rw [hgfa]
  refine ⟨hstat, ?_, ?_⟩
  · intro i r hi hr
    rw [hfa, getD_map_range _ _ _ _ hi, mark_single_getD _ _ r hr]
    rw [pass_one_results_entry self segs 1 flags nfs hlen hflags i r hi hr]
    constructor
    · by_cases hB : (segs.getD i defaultSegment).compare_at r self (1 - 1)
          flags nfs < 0
      · rw [if_pos ((to_sign_neg_iff _).mpr hB), if_pos hB]
      · rw [if_neg (fun hc => hB ((to_sign_neg_iff _).mp hc)), if_neg hB]
    · by_cases hB : to_sign ((segs.getD i defaultSegment).compare_at r self
          (1 - 1) flags nfs) < 0
      · rw [if_pos hB]
        unfold BEFORE_LAST_RESULT
        omega
      · rw [if_neg hB]
        unfold IN_LAST_RESULT
        omega
  · rw [hleast, hmiddle]
    unfold total_count_less total_count_not_less
    rw [← List.sum_map_add]
    have hcong : (List.range segs.length).map (fun i =>
        count_less (segs.getD i defaultSegment).chunk.num_rows
          ((pass_one_results self segs 1 flags nfs).getD i []) +
        count_not_less (segs.getD i defaultSegment).chunk.num_rows
          ((pass_one_results self segs 1 flags nfs).getD i [])) =
        (List.range segs.length).map (fun i =>
          (segs.getD i defaultSegment).chunk.num_rows) := by
      apply List.map_congr_left
      intro i _
      exact count_single_split _ _
    rw [hcong]
    have hms := map_getD_range segs (fun s => s.chunk.num_rows) defaultSegment
    rw [hms]

theorem C10_single_row_filter_witness :
    ((get_filter_array ⟨⟨1⟩, [[some 5]]⟩ [⟨⟨2⟩, [[some 3, some 9]]⟩] 1 []
      [1] [-1] 0 0 (fun _ => Status.OK)).filter_array.getD 0 []).getD 0 0 =
      BEFORE_LAST_RESULT := by
  have h := C10_single_row_filter ⟨⟨1⟩, [[some 5]]⟩ [⟨⟨2⟩, [[some 3, some 9]]⟩]
    [1] [-1] (fun _ => Status.OK) (fun b => rfl)
    (by intro s hs; simp at hs; subst hs; rfl)
    (by intro k hk; left; simp at hk; subst hk; rfl)
  exact ((h.2.1 0 0 (by decide) (by decide)).1).trans (by decide)

theorem get_filter_array_err_one (self : DataSegment)
    (segs : List DataSegment) (f0 : List (List Nat)) (flags nfs : List Int)
    (l0 m0 : Nat) (cb : Nat → Status) (e : Nat)
    (hcb : cb 0 = Status.Error e) :
    get_filter_array self segs 1 f0 flags nfs l0 m0 cb =
      ⟨Status.Error e, f0, l0, m0⟩ := by
  unfold get_filter_array
  rw [if_pos rfl, hcb]

theorem get_filter_array_err_gt (self : DataSegment)
    (segs : List DataSegment) (n : Nat) (f0 : List (List Nat))
    (flags nfs : List Int) (l0 m0 : Nat) (cb : Nat → Status) (e : Nat)
    (hn : n ≠ 1)
    (hcb : cb (segs.length * 8 +
      total_count_less segs (pass_one_results self segs n flags nfs) * 8) =
      Status.Error e) :
    get_filter_array self segs n f0 flags nfs l0 m0 cb =
      ⟨Status.Error e,
        (List.range segs.length).map (fun i =>
          mark_middle (segs.getD i defaultSegment)
            ((pass_one_results self segs n flags nfs).getD i [])),
        l0,
        total_count_less segs (pass_one_results self segs n flags nfs)⟩ := by
  unfold get_filter_array
  rw [if_neg hn]
  simp only [hcb]

theorem mark_middle_ne_before (seg : DataSegment) (cr : List Int) (v : Nat)
    (hv : v ∈ mark_middle seg cr) : v ≠ BEFORE_LAST_RESULT := by
  unfold mark_middle at hv
  obtain ⟨j, _, hvj⟩ := List.mem_map.mp hv
  by_cases hc : cr.getD j 0 < 0
  · rw [if_pos hc] at hvj
    rw [← hvj]
    unfold IN_LAST_RESULT BEFORE_LAST_RESULT
    omega
  · rw [if_neg hc] at hvj
    rw [← hvj]
    unfold BEFORE_LAST_RESULT
    omega

/-- C6: get_filter_array invokes the memory callback exactly once per call
(with 0 in the single-row branch, otherwise with the byte size of the
second-pass buffers) and returns that invocation's status unchanged: an OK
callback yields Status::OK and a non-OK status is returned to the caller,
in which case no second comparison pass happens — provided the incoming
filter_array carries no BEFORE_LAST_RESULT mark, the returned one carries
none either.  The memory ceiling is never silently ignored. -/
theorem C6_memory_limit_status (self : DataSegment) (segs : List DataSegment)
    (n : Nat) (f0 : List (List Nat)) (flags nfs : List Int) (l0 m0 : Nat)
    (cb : Nat → Status)
    (hf0 : ∀ l ∈ f0, ∀ v ∈ l, v ≠ BEFORE_LAST_RESULT) :
    ((get_filter_array self segs n f0 flags nfs l0 m0 cb).status =
      cb (if n = 1 then 0 else segs.length * 8 +
        total_count_less segs (pass_one_results self segs n flags nfs) * 8)) ∧
    ((get_filter_array self segs n f0 flags nfs l0 m0 cb).status ≠
        Status.OK →
      ∀ l ∈ (get_filter_array self segs n f0 flags nfs l0 m0 cb).filter_array,
        ∀ v ∈ l, v ≠ BEFORE_LAST_RESULT) := by
  refine ⟨get_filter_array_status self segs n f0 flags nfs l0 m0 cb, ?_⟩
  intro herr l hl v hv
  by_cases hn : n = 1
  · subst hn
    cases hcb : cb 0 with
    | OK =>
      have hs := get_filter_array_status self segs 1 f0 flags nfs l0 m0 cb
      rw [if_pos rfl, hcb] at hs
      exact absurd hs herr
    | Error e =>
      rw [get_filter_array_err_one self segs f0 flags nfs l0 m0 cb e hcb]
        at hl
      exact hf0 l hl v hv
  · cases hcb : cb (segs.length * 8 +
        total_count_less segs (pass_one_results self segs n flags nfs) * 8)
      with
    | OK =>
      have hs := get_filter_array_status self segs n f0 flags nfs l0 m0 cb
      rw [if_neg hn, hcb] at hs
      exact absurd hs herr
    | Error e =>
      rw [get_filter_array_err_gt self segs n f0 flags nfs l0 m0 cb e hn hcb]
        at hl
      obtain ⟨i, _, hli⟩ := List.mem_map.mp hl
      exact mark_middle_ne_before _ _ v (hli ▸ hv)

theorem C6_memory_limit_status_witness :
    (get_filter_array ⟨⟨1⟩, [[some 1]]⟩ [⟨⟨1⟩, [[some 2]]⟩] 2 [] [1] [-1]
      0 0 (fun _ => Status.Error 3)).status = Status.Error 3 :=
  (C6_memory_limit_status ⟨⟨1⟩, [[some 1]]⟩ [⟨⟨1⟩, [[some 2]]⟩] 2 [] [1]
    [-1] 0 0 (fun _ => Status.Error 3)
    (by intro l hl; simp at hl)).1.trans rfl

/-- C7, counterexample to the stated batch sizes: the first fixture batch of
sorted_chunks_merger_test.cpp holds 9 rows, not 14; the three batches hold
9 + 5 + 2 = 16 rows. -/
theorem C7_counterexample :
    chunk1Rows.length = 9 ∧ ¬ chunk1Rows.length = 14 ∧
    chunk2Rows.length = 5 ∧ chunk3Rows.length = 2 := by
  decide

/-- C7 (amended): merging the three pre-sorted fixture batches (9 + 5 + 2 rows,
ordered by region descending nulls-first, nation ascending nulls-first,
cust_key descending nulls-first) yields exactly one output batch of 16 rows
whose cust_key column is 71,70,69,54,4,56,55,49,41,16,52,58,24,12,2,6,
followed by end-of-stream on the next get_next call. -/
theorem C7_three_suppliers_fixture :
    (Option.map (fun b => b.map (fun r => r.getD 0 none))
      (SortedChunksMerger.get_next fixtureOrderSpec
        ⟨[chunk1Rows, chunk2Rows, chunk3Rows]⟩).1 =
      some [some 71, some 70, some 69, some 54, some 4, some 56, some 55,
        some 49, some 41, some 16, some 52, some 58, some 24, some 12,
        some 2, some 6]) ∧
    (Option.map List.length (SortedChunksMerger.get_next fixtureOrderSpec
      ⟨[chunk1Rows, chunk2Rows, chunk3Rows]⟩).1 = some 16) ∧
    ((SortedChunksMerger.get_next fixtureOrderSpec
      (SortedChunksMerger.get_next fixtureOrderSpec
        ⟨[chunk1Rows, chunk2Rows, chunk3Rows]⟩).2).1 = none) := by
  decide

theorem takeBatch_single (spec : List OrderKey) :
    ∀ (m : Nat) (rows : List Row),
    takeBatch spec m [rows] = (rows.take m, [rows.drop m]) := by
  intro m
  induction m with
  | zero =>
    intro rows
    simp [takeBatch]
  | succ m ih =>
    intro rows
    cases rows with
    | nil => simp [takeBatch, bestSource]
    | cons r rest =>
      simp [takeBatch, bestSource, popRow, ih rest]

theorem drainGo_single (spec : List OrderKey) :
    ∀ (fuel : Nat) (rows : List Row), rows.length ≤ fuel →
    drainGo spec fuel ⟨[rows]⟩ = (rows, ⟨[[]]⟩) := by
  intro fuel
  induction fuel with
  | zero =>
    intro rows h
    have hnil : rows = [] := List.eq_nil_of_length_eq_zero (by omega)
    subst hnil
    rfl
  | succ fuel ih =>
    intro rows h
    cases rows with
    | nil => rfl
    | cons r rest =>
      have hgn : SortedChunksMerger.get_next spec ⟨[r :: rest]⟩ =
          (some ((r :: rest).take vector_chunk_size),
            ⟨[(r :: rest).drop vector_chunk_size]⟩) := by
        unfold SortedChunksMerger.get_next
        rw [if_neg (by simp [totalRows])]
        rw [takeBatch_single spec vector_chunk_size (r :: rest)]
      simp only [drainGo, hgn]
      rw [ih ((r :: rest).drop vector_chunk_size)
        (by
          rw [List.length_drop]
          simp only [List.length_cons] at h ⊢
          unfold vector_chunk_size
          omega)]
      rw [List.take_append_drop]

/-- C8: a merger pulling from exactly one source supplying a finite sorted
row sequence emits that source's rows unchanged in order and count, and then
signals end-of-stream on the next get_next call. -/
theorem C8_single_source_passthrough (spec : List OrderKey) (rows : List Row)
    (hsorted : isSortedRows spec rows = true) :
    (drainAll spec ⟨[rows]⟩).1 = rows ∧
    (SortedChunksMerger.get_next spec (drainAll spec ⟨[rows]⟩).2).1 =
      none := by
  have h := drainGo_single spec (totalRows ⟨[rows]⟩) rows
    (by simp [totalRows])
  unfold drainAll
  rw [h]
  exact ⟨rfl, rfl⟩

theorem C8_single_source_passthrough_witness :
    (drainAll [(0, 1, -1)] ⟨[[[some 1], [some 2]]]⟩).1 =
      [[some 1], [some 2]] :=
  (C8_single_source_passthrough [(0, 1, -1)] [[some 1], [some 2]]
    (by decide)).1
